import Mathlib

/-!
Verification of `systemd-network-generator-hcloud` (`src/main.go`).

The Go program is shallowly embedded as follows:

* the YAML data model (`Metadata`, `NetworkConfig`, `NetworkConfigEntry`,
  `Subnet`) becomes plain Lean structures;
* `writeConfigs` becomes a state-passing function over an explicit model of
  the target directory (an association list of file name / content pairs)
  together with an oracle (`FsOracle`) deciding which filesystem operations
  succeed; every attempted operation is recorded in an event trace and every
  logged failure appends a line to a log list, mirroring the `log.Printf`
  calls of the source;
* `main` becomes `run`, a function of a `World` describing the outcomes of
  the external collaborators (interface enumeration, netlink calls, HTTP
  fetch, filesystem); netlink calls are recorded in a `NetEvent` trace.

String prefix/suffix tests mirror Go's `strings.HasPrefix`/`HasSuffix`.
-/

namespace HCloud

/-! ## Data model (`Metadata` and friends, src/main.go lines 17-41) -/

structure Subnet where
  ipv4 : Bool
  ipv6 : Bool
  type : String
  address : String
  gateway : String
  dnsNameservers : List String
deriving DecidableEq, Repr

structure NetworkConfigEntry where
  name : String
  type : String
  macAddress : String
  subnets : List Subnet
deriving DecidableEq, Repr

structure NetworkConfig where
  version : Int
  config : List NetworkConfigEntry
deriving DecidableEq, Repr

structure Metadata where
  networkConfig : NetworkConfig
deriving DecidableEq, Repr

/-- `ConfigDir` constant of the source. -/
def ConfigDir : String := "/run/systemd/network"

/-- `ConfigPrefix` constant of the source. -/
def ConfigPrefix : String := "80-hetzner-"

/-- `ConfigSuffix` constant of the source. -/
def ConfigSuffix : String := ".network"

/-! ## String prefix and suffix tests (Go `strings.HasPrefix` / `HasSuffix`) -/

/-- Boolean test that `p` is a prefix of `s`, on character lists. -/
def strHasPre : List Char → List Char → Bool
  | [], _ => true
  | _ :: _, [] => false
  | a :: ps, b :: ss => a == b && strHasPre ps ss

/-- Go `strings.HasPrefix s p`. -/
def startsWith (s p : String) : Bool := strHasPre p.data s.data

/-- Go `strings.HasSuffix s p`. -/
def endsWith (s p : String) : Bool := strHasPre p.data.reverse s.data.reverse

/-! ## Config renderer (the pure part of `writeConfigs`, lines 80-124)

The Go code builds the file content `config` by successive `+=` of single
directives.  `renderLines` lists those appended pieces in order;
`renderEntry` is their concatenation, the exact string passed to
`os.WriteFile`. -/

/-- One step of the `wantDHCPv4`/`wantDHCPv6` accumulation (lines 100-103). -/
def wantStep : Bool × Bool → Subnet → Bool × Bool
  | (w4, w6), s => if s.type == "dhcp" then (w4 || s.ipv4, w6 || s.ipv6) else (w4, w6)

/-- The `wantDHCPv4`/`wantDHCPv6` flags after the subnet loop (lines 97-113). -/
def wantDHCP (subs : List Subnet) : Bool × Bool := subs.foldl wantStep (false, false)

/-- The address/gateway/DNS directives one subnet contributes (lines 104-112). -/
def subnetLines (s : Subnet) : List String :=
  (if s.address != "" then ["Address=" ++ s.address ++ "\n"] else [])
    ++ (if s.gateway != "" then ["Gateway=" ++ s.gateway ++ "\n"] else [])
    ++ s.dnsNameservers.map (fun ns => "DNS=" ++ ns ++ "\n")

/-- The DHCP directive chosen from the want flags (lines 114-122). -/
def dhcpLines (w : Bool × Bool) : List String :=
  if w.1 then
    if w.2 then ["DHCP=yes\n"] else ["DHCP=ipv4\n"]
  else if w.2 then ["DHCP=ipv6\n"] else []

/-- All pieces appended to `config` for one entry, in source order
(lines 86-122). -/
def renderLines (e : NetworkConfigEntry) : List String :=
  ["[Match]\n", "MACAddress=" ++ e.macAddress ++ "\n", "\n", "[Network]\n",
    "LinkLocalAddressing=yes\n"]
    ++ e.subnets.flatMap subnetLines
    ++ dhcpLines (wantDHCP e.subnets)

/-- The full file content written for one entry. -/
def renderEntry (e : NetworkConfigEntry) : String := String.join (renderLines e)

/-- `entry.Type != "physical"` is skipped (line 81); this is the kept case. -/
def isPhys (e : NetworkConfigEntry) : Bool := e.type == "physical"

/-- The generated file name, `ConfigPrefix + entry.Name + ConfigSuffix`
(line 124; the directory part `ConfigDir + "/"` is fixed and omitted from the
directory model's keys). -/
def cfgName (e : NetworkConfigEntry) : String := ConfigPrefix ++ e.name ++ ConfigSuffix

/-- File name generated from a bare entry name. -/
def cfgNameOf (n : String) : String := ConfigPrefix ++ n ++ ConfigSuffix

/-! ## Directory model and synchronizer (`writeConfigs`, lines 54-132) -/

/-- The target directory: file names (within `ConfigDir`) with contents. -/
abbrev Dir := List (String × String)

/-- Effect of `os.Remove` on the directory model. -/
def removeName (n : String) (d : Dir) : Dir := d.filter (fun p => p.1 != n)

/-- Effect of `os.WriteFile` on the directory model (create or replace). -/
def writeFileEntry (n c : String) (d : Dir) : Dir := removeName n d ++ [(n, c)]

/-- The cleanup test of line 69: name has `ConfigPrefix` and `ConfigSuffix`. -/
def matchesConfig (n : String) : Bool :=
  startsWith n ConfigPrefix && endsWith n ConfigSuffix

/-- Look up a file's content in the directory model. -/
def dirGet (n : String) (d : Dir) : Option String :=
  (d.find? (fun p => p.1 == n)).map Prod.snd

/-- Outcomes of the filesystem operations, decided externally. -/
structure FsOracle where
  mkdirOk : Bool
  readDirOk : Bool
  removeOk : String → Bool
  writeOk : String → Bool

/-- The oracle under which every filesystem operation succeeds. -/
def allOk : FsOracle :=
  { mkdirOk := true, readDirOk := true, removeOk := fun _ => true, writeOk := fun _ => true }

/-- Filesystem operations attempted by `writeConfigs`, in order. -/
inductive FsEvent where
  | mkdir
  | readDir
  | remove (n : String)
  | write (n : String)
deriving DecidableEq, Repr

/-- State threaded through `writeConfigs`: the `ok` flag, the directory,
the trace of attempted operations, and the log lines. -/
structure SyncSt where
  ok : Bool
  dir : Dir
  events : List FsEvent
  log : List String
deriving DecidableEq, Repr

/-- Body of the cleanup loop (lines 67-76) for one directory entry name. -/
def removeStep (o : FsOracle) (st : SyncSt) (n : String) : SyncSt :=
  if matchesConfig n then
    let st' := { st with events := st.events ++ [FsEvent.remove n] }
    if o.removeOk n then { st' with dir := removeName n st'.dir }
    else { st' with ok := false, log := st'.log ++ ["removing " ++ n ++ ": error"] }
  else st

/-- Body of the write loop (lines 80-129) for one entry. -/
def writeStep (o : FsOracle) (st : SyncSt) (e : NetworkConfigEntry) : SyncSt :=
  if isPhys e then
    let st' := { st with events := st.events ++ [FsEvent.write (cfgName e)] }
    if o.writeOk (cfgName e) then
      { st' with dir := writeFileEntry (cfgName e) (renderEntry e) st'.dir }
    else { st' with ok := false, log := st'.log ++ ["writing " ++ cfgName e ++ ": error"] }
  else st

/-- `writeConfigs` (lines 54-132): mkdir, enumerate and delete matching
entries, then write the rendered config of every physical entry; each
failure clears `ok` and is logged, but processing continues. -/
def writeConfigs (o : FsOracle) (entries : List NetworkConfigEntry) (d : Dir) : SyncSt :=
  let st0 : SyncSt := { ok := true, dir := d, events := [FsEvent.mkdir], log := [] }
  let st1 :=
    if o.mkdirOk then st0
    else { st0 with ok := false, log := ["creating " ++ ConfigDir ++ ": error"] }
  let st2 :=
    if o.readDirOk then
      (st1.dir.map Prod.fst).foldl (removeStep o)
        { st1 with events := st1.events ++ [FsEvent.readDir] }
    else
      { st1 with
        ok := false
        events := st1.events ++ [FsEvent.readDir]
        log := st1.log ++ ["reading directory " ++ ConfigDir ++ ": error"] }
  entries.foldl (writeStep o) st2

/-! ## Link prober (`main`, lines 142-157) -/

/-- A network interface as seen by the prober: name and `FlagUp`. -/
structure LinkInfo where
  name : String
  up : Bool
deriving DecidableEq, Repr

/-- The name test of line 147. -/
def ethLike (n : String) : Bool := startsWith n "en" || startsWith n "eth"

/-- The scan loop of lines 145-157, with the `firstEn` accumulator. -/
def probeLoop : List LinkInfo → Option LinkInfo → Bool × Option LinkInfo
  | [], fe => (false, fe)
  | l :: ls, fe =>
    if ethLike l.name then
      if l.up then (true, fe)
      else probeLoop ls (if fe.isNone then some l else fe)
    else probeLoop ls fe

/-- `(haveLink, firstEn)` after the scan. -/
def probe (links : List LinkInfo) : Bool × Option LinkInfo := probeLoop links none

/-! ## Orchestrator (`main`, lines 134-221) -/

/-- Netlink calls performed by `main`, in order. -/
inductive NetEvent where
  | setUp (n : String)
  | addrAdd (n : String)
  | addrDel (n : String)
  | setDown (n : String)
deriving DecidableEq, Repr

/-- Outcome of decoding the fetched body (`yaml.Unmarshal`, line 202). -/
inductive ParseResult where
  | parseErr
  | ok (m : Metadata)
deriving DecidableEq, Repr

/-- Outcome of `io.ReadAll` (line 200). -/
inductive ReadResult where
  | readErr
  | ok (p : ParseResult)
deriving DecidableEq, Repr

/-- Outcome of `client.Get` (line 195): connection error, or a response
with a status code and a body. -/
inductive HttpResult where
  | connErr
  | resp (status : Nat) (r : ReadResult)
deriving DecidableEq, Repr

/-- Outcomes of all external collaborators for one run, plus the initial
directory contents. -/
structure World where
  links : Option (List LinkInfo)
  setUpOk : Bool
  addrAddOk : Bool
  http : HttpResult
  fs : FsOracle
  dir : Dir
  addrDelOk : Bool
  setDownOk : Bool

/-- Observable outcome of one run. -/
structure RunResult where
  exitCode : Nat
  dir : Dir
  netEvents : List NetEvent
  fsEvents : List FsEvent
  log : List String
deriving DecidableEq, Repr

/-- The activation block of lines 172-184: bring the fallback up, then add
the link-local address; on address failure the interface is brought back
down (line 181) and the reference nulled. -/
def activate (w : World) (l : LinkInfo) : Option LinkInfo × List NetEvent × List String :=
  if w.setUpOk then
    if w.addrAddOk then
      (some l, [NetEvent.setUp l.name, NetEvent.addrAdd l.name], [])
    else
      (none, [NetEvent.setUp l.name, NetEvent.addrAdd l.name, NetEvent.setDown l.name],
        ["adding link-local address to " ++ l.name ++ ": error"])
  else (none, [NetEvent.setUp l.name], ["bringing up " ++ l.name ++ ": error"])

/-- The fetch-and-sync chain of lines 188-210: connection, status 200, body
read, decode, version check, then `writeConfigs`.  Returns the `ok` flag,
the resulting directory, the filesystem trace and the log lines. -/
def fetchSync (w : World) : Bool × Dir × List FsEvent × List String :=
  match w.http with
  | HttpResult.connErr => (false, w.dir, [], ["fetching metadata: error"])
  | HttpResult.resp status r =>
    if status != 200 then
      (false, w.dir, [], ["fetching metadata: unexpected http status " ++ toString status])
    else
      match r with
      | ReadResult.readErr => (false, w.dir, [], ["fetching metadata: read error"])
      | ReadResult.ok ParseResult.parseErr =>
        (false, w.dir, [], ["fetching metadata: parse error"])
      | ReadResult.ok (ParseResult.ok m) =>
        if m.networkConfig.version != 1 then
          (false, w.dir, [],
            ["fetching metadata: unknown network-config version "
              ++ toString m.networkConfig.version])
        else
          let s := writeConfigs w.fs m.networkConfig.config w.dir
          (s.ok, s.dir, s.events, s.log)

/-- `main` (lines 134-221): probe, maybe activate, fetch and sync, then
bring the interface down again (lines 212-216; the `netlink.AddrDel` and
`netlink.LinkSetDown` return values are discarded there), and exit 1 unless
everything succeeded. -/
def run (w : World) : RunResult :=
  let enumLog : List String :=
    match w.links with
    | none => ["listing network interfaces: error"]
    | some _ => []
  let links := w.links.getD []
  let pr := probe links
  let haveLink := pr.1
  let act : Option LinkInfo × List NetEvent × List String :=
    if haveLink then (pr.2, [], [])
    else
      match pr.2 with
      | none => (none, [], ["no ethernet interfaces"])
      | some l => activate w l
  let firstEn := act.1
  let fs := fetchSync w
  let deEvents : List NetEvent :=
    if haveLink then []
    else
      match firstEn with
      | some l => [NetEvent.addrDel l.name, NetEvent.setDown l.name]
      | none => []
  { exitCode := if fs.1 then 0 else 1
    dir := fs.2.1
    netEvents := act.2.1 ++ deEvents
    fsEvents := fs.2.2.1
    log := enumLog ++ act.2.2 ++ fs.2.2.2 }

/-! ## Derived descriptions used in theorem statements -/

/-- The fallback the scan loop leaves in `firstEn`: the first ethernet-like
interface of the enumeration provided it is down; `none` otherwise. -/
def fallbackOf (links : List LinkInfo) : Option LinkInfo :=
  match (links.filter (fun l => ethLike l.name)).head? with
  | none => none
  | some l => if l.up then none else some l

/-- Cumulative effect of the cleanup loop on the directory. -/
def removeAll (o : FsOracle) (ns : List String) (d : Dir) : Dir :=
  ns.foldl (fun d' n => if matchesConfig n && o.removeOk n then removeName n d' else d') d

/-- Cumulative effect of the write loop on the directory. -/
def writeAll (o : FsOracle) (es : List NetworkConfigEntry) (d : Dir) : Dir :=
  es.foldl
    (fun d' e =>
      if isPhys e && o.writeOk (cfgName e) then
        writeFileEntry (cfgName e) (renderEntry e) d'
      else d') d

/-- Log lines produced by the cleanup loop. -/
def removeLog (o : FsOracle) (ns : List String) : List String :=
  (ns.filter (fun n => matchesConfig n && !(o.removeOk n))).map
    (fun n => "removing " ++ n ++ ": error")

/-- Log lines produced by the write loop. -/
def writeLog (o : FsOracle) (es : List NetworkConfigEntry) : List String :=
  (es.filter (fun e => isPhys e && !(o.writeOk (cfgName e)))).map
    (fun e => "writing " ++ cfgName e ++ ": error")

/-- The metadata document obtained by the fetch chain when connection, HTTP
status 200, body read and decode all succeed; `none` on any failure. -/
def fetchDecode : HttpResult → Option Metadata
  | HttpResult.connErr => none
  | HttpResult.resp status r =>
    if status != 200 then none
    else
      match r with
      | ReadResult.readErr => none
      | ReadResult.ok ParseResult.parseErr => none
      | ReadResult.ok (ParseResult.ok m) => some m

/-- Every directory-sync step succeeded: directory creation, enumeration,
each deletion of a matching stale file, and each file write. -/
def syncStepsOk (o : FsOracle) (d : Dir) (es : List NetworkConfigEntry) : Bool :=
  o.mkdirOk && o.readDirOk
    && ((d.map Prod.fst).filter matchesConfig).all o.removeOk
    && (es.filter isPhys).all (fun e => o.writeOk (cfgName e))

/-- The overall success condition of a run: metadata decoded, version 1,
and every sync step succeeded. -/
def mainOk (h : HttpResult) (o : FsOracle) (d : Dir) : Bool :=
  match fetchDecode h with
  | none => false
  | some m => (m.networkConfig.version == 1) && syncStepsOk o d m.networkConfig.config

/-- The netlink calls a run performs, as a function of the probe outcome and
the activation oracle. -/
def netTrace (w : World) : List NetEvent :=
  match probe (w.links.getD []) with
  | (true, _) => []
  | (false, none) => []
  | (false, some l) =>
    if w.setUpOk then
      if w.addrAddOk then
        [NetEvent.setUp l.name, NetEvent.addrAdd l.name,
          NetEvent.addrDel l.name, NetEvent.setDown l.name]
      else [NetEvent.setUp l.name, NetEvent.addrAdd l.name, NetEvent.setDown l.name]
    else [NetEvent.setUp l.name]

/-- The physical entries with a given name, in order. -/
def physNamed (n : String) (es : List NetworkConfigEntry) : List NetworkConfigEntry :=
  es.filter (fun e => isPhys e && e.name == n)

/-! ## Concrete inputs used in witnesses, counterexamples and scenarios -/

/-- A physical entry with a given name and MAC and no subnets. -/
def mkEnt (n mac : String) : NetworkConfigEntry :=
  { name := n, type := "physical", macAddress := mac, subnets := [] }

/-- Oracle for the partial-failure scenario: directory creation fails and
the write of `80-hetzner-b.network` fails; everything else succeeds. -/
def mixedOracle : FsOracle :=
  { mkdirOk := false, readDirOk := true, removeOk := fun _ => true,
    writeOk := fun n => n != cfgNameOf "b" }

/-- A metadata document whose network-config version is 2. -/
def metaV2 : Metadata := { networkConfig := { version := 2, config := [mkEnt "a" "aa"] } }

/-- World for the version-mismatch witness: a valid response whose document
has version 2, with one stale matching file already on disk. -/
def worldV2 : World :=
  { links := some []
    setUpOk := true
    addrAddOk := true
    http := HttpResult.resp 200 (ReadResult.ok (ParseResult.ok metaV2))
    fs := allOk
    dir := [(cfgNameOf "old", "stale")]
    addrDelOk := true
    setDownOk := true }

/-- World in which activation happens and the deactivation netlink calls
fail: one down ethernet interface, successful activation, failed fetch. -/
def worldDeactFail : World :=
  { links := some [{ name := "eth0", up := false }]
    setUpOk := true
    addrAddOk := true
    http := HttpResult.connErr
    fs := allOk
    dir := []
    addrDelOk := false
    setDownOk := false }

/-- `worldDeactFail` with the deactivation calls succeeding instead. -/
def worldDeactOk : World :=
  { worldDeactFail with addrDelOk := true, setDownOk := true }

/-! ## String lemmas -/

theorem data_append (a b : String) : (a ++ b).data = a.data ++ b.data := rfl

theorem strHasPre_self_append (p t : List Char) : strHasPre p (p ++ t) = true := by
  induction p with
  | nil => rfl
  | cons a ps ih => simp [strHasPre, ih]

theorem startsWith_build (p s : String) : startsWith (p ++ s) p = true := by
  unfold startsWith
  rw [data_append]
  exact strHasPre_self_append _ _

theorem endsWith_build (s p : String) : endsWith (s ++ p) p = true := by
  unfold endsWith
  rw [data_append, List.reverse_append]
  exact strHasPre_self_append _ _

theorem str_append_assoc (a b c : String) : a ++ (b ++ c) = (a ++ b) ++ c :=
  String.ext (by rw [data_append, data_append, data_append, data_append, List.append_assoc])

theorem cfgNameOf_matches (n : String) : matchesConfig (cfgNameOf n) = true := by
  unfold matchesConfig cfgNameOf
  rw [Bool.and_eq_true]
  constructor
  · rw [← str_append_assoc]
    exact startsWith_build _ _
  · exact endsWith_build _ _

theorem cfgName_eq (e : NetworkConfigEntry) : cfgName e = cfgNameOf e.name := rfl

theorem cfgName_matches (e : NetworkConfigEntry) : matchesConfig (cfgName e) = true :=
  cfgNameOf_matches e.name

theorem cfgNameOf_inj {a b : String} (h : cfgNameOf a = cfgNameOf b) : a = b := by
  have hd := congrArg String.data h
  simp only [cfgNameOf, data_append] at hd
  exact String.ext (List.append_cancel_left (List.append_cancel_right hd))

/-! ## Link prober: characterization (claim C3) -/

theorem probeLoop_char (links : List LinkInfo) (fe : Option LinkInfo) :
    probeLoop links fe =
      ((links.filter (fun l => ethLike l.name)).any (fun l => l.up),
        if fe.isNone then fallbackOf links else fe) := by
  induction links generalizing fe with
  | nil => cases fe <;> simp [probeLoop, fallbackOf]
  | cons l ls ih =>
    by_cases hE : ethLike l.name = true
    · by_cases hU : l.up = true
      · cases fe <;> simp [probeLoop, hE, hU, fallbackOf]
      · have hU' : l.up = false := by simpa using hU
        cases fe with
        | none =>
          simp only [probeLoop, hE, hU', if_true, if_false, Bool.false_eq_true,
            Option.isNone_none]
          rw [ih]
          simp [fallbackOf, hE, hU']
        | some f =>
          simp only [probeLoop, hE, hU', if_true, if_false, Bool.false_eq_true,
            Option.isNone_some]
          rw [ih]
          simp [hE, hU']
    · have hE' : ethLike l.name = false := by simpa using hE
      simp only [probeLoop, hE', if_false, Bool.false_eq_true]
      rw [ih]
      simp [fallbackOf, hE']

/-- Claim C3: the link prober scans the enumeration in order, looking only
at interfaces whose name begins with `en` or `eth`; `haveLink` is true
exactly when such an interface with the up flag exists (the scan stops at
the first one), and the fallback is the first ethernet-like interface of
the enumeration when that one is down, never overwritten afterwards; with
no ethernet-like interface at all the fallback is empty. -/
theorem probe_scan_characterization (links : List LinkInfo) :
    probe links =
      ((links.filter (fun l => ethLike l.name)).any (fun l => l.up),
        match (links.filter (fun l => ethLike l.name)).head? with
        | none => none
        | some l => if l.up then none else some l) := by
  rw [probe, probeLoop_char]
  rfl

/-! ## Renderer lemmas (claim C2) -/

theorem wantFold_or (subs : List Subnet) (w4 w6 : Bool) :
    subs.foldl wantStep (w4, w6) =
      (w4 || subs.any (fun s => s.type == "dhcp" && s.ipv4),
        w6 || subs.any (fun s => s.type == "dhcp" && s.ipv6)) := by
  induction subs generalizing w4 w6 with
  | nil => simp
  | cons s ss ih =>
    rw [List.foldl_cons]
    simp only [wantStep]
    by_cases h : (s.type == "dhcp") = true
    · rw [if_pos h, ih]
      simp [h, Bool.or_assoc]
    · have h' : (s.type == "dhcp") = false := by simpa using h
      rw [if_neg h, ih]
      simp [h']

theorem subnetLines_not_dhcp (s : Subnet) :
    ∀ l ∈ subnetLines s, startsWith l "DHCP=" = false := by
  intro l hl
  unfold subnetLines at hl
  rcases List.mem_append.mp hl with h | h
  · rcases List.mem_append.mp h with h' | h'
    · by_cases ha : (s.address != "") = true
      · rw [if_pos ha] at h'
        simp only [List.mem_singleton] at h'
        subst h'
        rfl
      · rw [if_neg ha] at h'
        exact absurd h' (List.not_mem_nil l)
    · by_cases hg : (s.gateway != "") = true
      · rw [if_pos hg] at h'
        simp only [List.mem_singleton] at h'
        subst h'
        rfl
      · rw [if_neg hg] at h'
        exact absurd h' (List.not_mem_nil l)
  · rcases List.mem_map.mp h with ⟨ns, _, hns⟩
    subst hns
    rfl

theorem dhcpLines_filter (w : Bool × Bool) :
    (dhcpLines w).filter (fun l => startsWith l "DHCP=") = dhcpLines w := by
  rcases w with ⟨b1, b2⟩
  cases b1 <;> cases b2 <;> rfl

theorem dhcpLines_table (w : Bool × Bool) :
    dhcpLines w =
      (if w.1 && w.2 then ["DHCP=yes\n"]
        else if w.1 then ["DHCP=ipv4\n"]
        else if w.2 then ["DHCP=ipv6\n"] else []) := by
  rcases w with ⟨b1, b2⟩
  cases b1 <;> cases b2 <;> rfl

theorem renderLines_dhcp_filter (e : NetworkConfigEntry) :
    (renderLines e).filter (fun l => startsWith l "DHCP=") =
      dhcpLines (wantDHCP e.subnets) := by
  unfold renderLines
  rw [List.filter_append, List.filter_append]
  have h1 : List.filter (fun l => startsWith l "DHCP=")
      ["[Match]\n", "MACAddress=" ++ e.macAddress ++ "\n", "\n", "[Network]\n",
        "LinkLocalAddressing=yes\n"] = [] := rfl
  have h2 : List.filter (fun l => startsWith l "DHCP=")
      (e.subnets.flatMap subnetLines) = [] := by
    rw [List.filter_eq_nil_iff]
    intro l hl
    rcases List.mem_flatMap.mp hl with ⟨s, _, hls⟩
    simp [subnetLines_not_dhcp s l hls]
  rw [h1, h2, dhcpLines_filter]
  rfl

/-- Claim C2: the DHCP want flags are the OR over the `dhcp`-typed subnets
of their `ipv4`/`ipv6` flags, they are monotone (once set they survive any
further subnets), and among the pieces the renderer emits, the ones
beginning with `DHCP=` are exactly one directive per the truth table
(both → `DHCP=yes`, only v4 → `DHCP=ipv4`, only v6 → `DHCP=ipv6`) and none
when neither flag is set. -/
theorem render_dhcp_flags_and_directive (e : NetworkConfigEntry) :
    (wantDHCP e.subnets).1 = e.subnets.any (fun s => s.type == "dhcp" && s.ipv4)
    ∧ (wantDHCP e.subnets).2 = e.subnets.any (fun s => s.type == "dhcp" && s.ipv6)
    ∧ (∀ (pre : List Subnet) (b : Bool),
        (pre.foldl wantStep (true, b)).1 = true ∧ (pre.foldl wantStep (b, true)).2 = true)
    ∧ (renderLines e).filter (fun l => startsWith l "DHCP=") = dhcpLines (wantDHCP e.subnets)
    ∧ dhcpLines (wantDHCP e.subnets) =
        (if (wantDHCP e.subnets).1 && (wantDHCP e.subnets).2 then ["DHCP=yes\n"]
          else if (wantDHCP e.subnets).1 then ["DHCP=ipv4\n"]
          else if (wantDHCP e.subnets).2 then ["DHCP=ipv6\n"] else []) := by
  refine ⟨?_, ?_, ?_, renderLines_dhcp_filter e, dhcpLines_table _⟩
  · rw [wantDHCP, wantFold_or]
    simp
  · rw [wantDHCP, wantFold_or]
    simp
  · intro pre b
    rw [wantFold_or, wantFold_or]
    simp

/-! ## Synchronizer: characterization of `writeConfigs` -/

theorem removeFold_char (o : FsOracle) (ns : List String) (st : SyncSt) :
    ns.foldl (removeStep o) st =
      { ok := st.ok && (ns.filter matchesConfig).all o.removeOk
        dir := removeAll o ns st.dir
        events := st.events ++ (ns.filter matchesConfig).map FsEvent.remove
        log := st.log ++ removeLog o ns } := by
  induction ns generalizing st with
  | nil => simp [removeAll, removeLog]
  | cons n ns ih =>
    rw [List.foldl_cons, ih]
    unfold removeStep removeAll removeLog
    by_cases hm : matchesConfig n = true
    · by_cases hok : o.removeOk n = true
      · simp [hm, hok, List.append_assoc]
      · have hok' : o.removeOk n = false := by simpa using hok
        simp [hm, hok', List.append_assoc]
    · have hm' : matchesConfig n = false := by simpa using hm
      simp [hm', removeAll, removeLog]

theorem writeFold_char (o : FsOracle) (es : List NetworkConfigEntry) (st : SyncSt) :
    es.foldl (writeStep o) st =
      { ok := st.ok && (es.filter isPhys).all (fun e => o.writeOk (cfgName e))
        dir := writeAll o es st.dir
        events := st.events ++ (es.filter isPhys).map (fun e => FsEvent.write (cfgName e))
        log := st.log ++ writeLog o es } := by
  induction es generalizing st with
  | nil => simp [writeAll, writeLog]
  | cons e es ih =>
    rw [List.foldl_cons, ih]
    unfold writeStep writeAll writeLog
    by_cases hp : isPhys e = true
    · by_cases hok : o.writeOk (cfgName e) = true
      · simp [hp, hok, List.append_assoc]
      · have hok' : o.writeOk (cfgName e) = false := by simpa using hok
        simp [hp, hok', List.append_assoc]
    · have hp' : isPhys e = false := by simpa using hp
      simp [hp', writeAll, writeLog]

theorem writeConfigs_char (o : FsOracle) (es : List NetworkConfigEntry) (d : Dir) :
    writeConfigs o es d =
      { ok := o.mkdirOk && o.readDirOk
            && ((d.map Prod.fst).filter matchesConfig).all o.removeOk
            && (es.filter isPhys).all (fun e => o.writeOk (cfgName e))
        dir := writeAll o es (if o.readDirOk then removeAll o (d.map Prod.fst) d else d)
        events := [FsEvent.mkdir, FsEvent.readDir]
          ++ (if o.readDirOk then ((d.map Prod.fst).filter matchesConfig).map FsEvent.remove
              else [])
          ++ (es.filter isPhys).map (fun e => FsEvent.write (cfgName e))
        log := (if o.mkdirOk then [] else ["creating " ++ ConfigDir ++ ": error"])
          ++ (if o.readDirOk then removeLog o (d.map Prod.fst)
              else ["reading directory " ++ ConfigDir ++ ": error"])
          ++ writeLog o es } := by
  unfold writeConfigs
  by_cases hm : o.mkdirOk = true
  · by_cases hr : o.readDirOk = true
    · simp only [hm, hr, if_true, if_pos]
      rw [removeFold_char, writeFold_char]
      simp [hm, hr, Bool.and_assoc, List.append_assoc]
    · have hr' : o.readDirOk = false := by simpa using hr
      simp only [hm, hr', if_true, Bool.false_eq_true, if_false]
      rw [writeFold_char]
      simp [hm, hr', List.append_assoc]
  · have hm' : o.mkdirOk = false := by simpa using hm
    by_cases hr : o.readDirOk = true
    · simp only [hm', hr, if_true, Bool.false_eq_true, if_false]
      rw [removeFold_char, writeFold_char]
      simp [hm', hr, Bool.and_assoc, List.append_assoc]
    · have hr' : o.readDirOk = false := by simpa using hr
      simp only [hm', hr', Bool.false_eq_true, if_false]
      rw [writeFold_char]
      simp [hm', hr', List.append_assoc]

/-! ## Synchronizer under the all-success oracle -/

theorem removeAll_cons (o : FsOracle) (n : String) (ns : List String) (d : Dir) :
    removeAll o (n :: ns) d =
      removeAll o ns (if (matchesConfig n && o.removeOk n) = true then removeName n d else d) :=
  rfl

theorem writeAll_cons (o : FsOracle) (e : NetworkConfigEntry) (es : List NetworkConfigEntry)
    (d : Dir) :
    writeAll o (e :: es) d =
      writeAll o es
        (if (isPhys e && o.writeOk (cfgName e)) = true then
          writeFileEntry (cfgName e) (renderEntry e) d
        else d) :=
  rfl

theorem removeAll_allOk (ns : List String) (d : Dir)
    (h : ∀ p ∈ d, matchesConfig p.1 = true → p.1 ∈ ns) :
    removeAll allOk ns d = d.filter (fun p => !(matchesConfig p.1)) := by
  induction ns generalizing d with
  | nil =>
    rw [removeAll, List.foldl_nil]
    rw [Eq.comm, List.filter_eq_self]
    intro p hp
    cases hb : matchesConfig p.1 with
    | false => simp
    | true => exact absurd (h p hp hb) (List.not_mem_nil _)
  | cons n ns ih =>
    rw [removeAll_cons]
    by_cases hm : matchesConfig n = true
    · rw [if_pos (by simp [hm, allOk])]
      have hmem : ∀ p ∈ removeName n d, matchesConfig p.1 = true → p.1 ∈ ns := by
        intro p hp hb
        rcases List.mem_filter.mp hp with ⟨hpd, hpn⟩
        rcases List.mem_cons.mp (h p hpd hb) with heq | hmem
        · exact absurd heq (by simpa using hpn)
        · exact hmem
      rw [ih (removeName n d) hmem]
      unfold removeName
      rw [List.filter_filter]
      apply List.filter_congr
      intro p _
      cases hb : matchesConfig p.1 with
      | false =>
        have hne : (p.1 != n) = true := by
          rw [bne_iff_ne]
          intro he
          rw [he] at hb
          rw [hb] at hm
          exact Bool.false_ne_true hm
        simp [hne]
      | true => simp
    · rw [if_neg (by simp [hm])]
      apply ih
      intro p hp hb
      rcases List.mem_cons.mp (h p hp hb) with heq | hmem
      · rw [← heq] at hm
        exact absurd hb hm
      · exact hmem

theorem removeAll_allOk_self (d : Dir) :
    removeAll allOk (d.map Prod.fst) d = d.filter (fun p => !(matchesConfig p.1)) :=
  removeAll_allOk _ d (fun p hp _ => List.mem_map.mpr ⟨p, hp, rfl⟩)

theorem writeFileEntry_append_left (n c : String) (d1 d2 : Dir)
    (h : ∀ p ∈ d1, matchesConfig p.1 = false) (hn : matchesConfig n = true) :
    writeFileEntry n c (d1 ++ d2) = d1 ++ writeFileEntry n c d2 := by
  unfold writeFileEntry removeName
  rw [List.filter_append]
  rw [show d1.filter (fun p => p.1 != n) = d1 from ?keep]
  · rw [List.append_assoc]
  case keep =>
    rw [List.filter_eq_self]
    intro p hp
    rw [bne_iff_ne]
    intro he
    rw [← he] at hn
    rw [h p hp] at hn
    exact Bool.false_ne_true hn

theorem writeAll_append_left (o : FsOracle) (es : List NetworkConfigEntry) (d1 d2 : Dir)
    (h : ∀ p ∈ d1, matchesConfig p.1 = false) :
    writeAll o es (d1 ++ d2) = d1 ++ writeAll o es d2 := by
  induction es generalizing d2 with
  | nil => rfl
  | cons e es ih =>
    rw [writeAll_cons, writeAll_cons]
    by_cases hc : (isPhys e && o.writeOk (cfgName e)) = true
    · rw [if_pos hc, if_pos hc]
      rw [writeFileEntry_append_left _ _ _ _ h (cfgName_matches e)]
      exact ih _
    · rw [if_neg hc, if_neg hc]
      exact ih _

theorem writeAll_all_matches (o : FsOracle) (es : List NetworkConfigEntry) (d : Dir)
    (h : ∀ p ∈ d, matchesConfig p.1 = true) :
    ∀ p ∈ writeAll o es d, matchesConfig p.1 = true := by
  induction es generalizing d with
  | nil => exact h
  | cons e es ih =>
    rw [writeAll_cons]
    by_cases hc : (isPhys e && o.writeOk (cfgName e)) = true
    · rw [if_pos hc]
      apply ih
      intro p hp
      rcases List.mem_append.mp hp with hp' | hp'
      · exact h p (List.mem_of_mem_filter hp')
      · rcases List.mem_singleton.mp hp' with rfl
        exact cfgName_matches e
    · rw [if_neg hc]
      exact ih _ h

theorem writeConfigs_allOk_dir (es : List NetworkConfigEntry) (d : Dir) :
    (writeConfigs allOk es d).dir =
      d.filter (fun p => !(matchesConfig p.1)) ++ writeAll allOk es [] := by
  rw [writeConfigs_char]
  show writeAll allOk es (if allOk.readDirOk = true then removeAll allOk (d.map Prod.fst) d else d)
      = _
  rw [if_pos (show allOk.readDirOk = true from rfl), removeAll_allOk_self]
  rw [show d.filter (fun p => !(matchesConfig p.1)) =
        d.filter (fun p => !(matchesConfig p.1)) ++ [] by simp]
  rw [writeAll_append_left]
  · simp
  · intro p hp
    have := (List.mem_filter.mp hp).2
    simpa using this

/-- Claim C7: with every filesystem operation succeeding, running the
synchronizer a second time on the same entries leaves the directory exactly
as the first run left it (the first run's files all match the naming
convention, are deleted by the second run's cleanup, and are rewritten
identically). -/
theorem writeConfigs_idempotent (es : List NetworkConfigEntry) (d : Dir) :
    (writeConfigs allOk es ((writeConfigs allOk es d).dir)).dir =
      (writeConfigs allOk es d).dir := by
  rw [writeConfigs_allOk_dir, writeConfigs_allOk_dir]
  rw [List.filter_append]
  rw [show (writeAll allOk es []).filter (fun p => !(matchesConfig p.1)) = [] from ?wm]
  · rw [List.filter_filter]
    rw [List.append_nil]
    congr 1
    apply List.filter_congr
    intro p _
    cases matchesConfig p.1 <;> rfl
  case wm =>
    rw [List.filter_eq_nil_iff]
    intro p hp
    have := writeAll_all_matches allOk es [] (by intro q hq; exact absurd hq (List.not_mem_nil q)) p hp
    simp [this]

/-- Claim C6: the synchronizer isolates failures.  `ok` is true exactly when
every step (mkdir, enumeration, every matching deletion, every write)
succeeded; the operations attempted do not depend on which of mkdir, the
deletions or the writes fail (each failure only clears `ok`); and in the
concrete scenario where directory creation fails and two of three entry
writes succeed, the run reports failure while the two successfully written
files are present and the failed one is absent. -/
theorem sync_failures_isolated (o : FsOracle) (es : List NetworkConfigEntry) (d : Dir) :
    ((writeConfigs o es d).ok
        = (o.mkdirOk && o.readDirOk
          && ((d.map Prod.fst).filter matchesConfig).all o.removeOk
          && (es.filter isPhys).all (fun e => o.writeOk (cfgName e))))
    ∧ ((writeConfigs o es d).events
        = (writeConfigs
            { mkdirOk := true, readDirOk := o.readDirOk,
              removeOk := fun _ => true, writeOk := fun _ => true } es d).events)
    ∧ ((writeConfigs mixedOracle [mkEnt "a" "aa", mkEnt "b" "bb", mkEnt "c" "cc"] []).ok
          = false
        ∧ (cfgNameOf "a", renderEntry (mkEnt "a" "aa"))
            ∈ (writeConfigs mixedOracle [mkEnt "a" "aa", mkEnt "b" "bb", mkEnt "c" "cc"]
                []).dir
        ∧ (cfgNameOf "c", renderEntry (mkEnt "c" "cc"))
            ∈ (writeConfigs mixedOracle [mkEnt "a" "aa", mkEnt "b" "bb", mkEnt "c" "cc"]
                []).dir
        ∧ dirGet (cfgNameOf "b")
            (writeConfigs mixedOracle [mkEnt "a" "aa", mkEnt "b" "bb", mkEnt "c" "cc"]
                []).dir = none) := by
  refine ⟨?_, ?_, by decide⟩
  · rw [writeConfigs_char]
  · rw [writeConfigs_char, writeConfigs_char]

/-- Claim C8: every existing directory entry whose name carries the
`80-hetzner-` prefix and `.network` suffix has its deletion attempted,
whatever the current entry set is (including one producing zero files and
including entries about to be rewritten); and under the all-success oracle
the resulting directory is exactly the non-matching survivors followed by
the freshly written files, so every matching stale file is gone. -/
theorem stale_matching_files_deleted (o : FsOracle) (es : List NetworkConfigEntry) (d : Dir) :
    (∀ n c, o.readDirOk = true → (n, c) ∈ d → matchesConfig n = true →
      FsEvent.remove n ∈ (writeConfigs o es d).events)
    ∧ (writeConfigs allOk es d).dir
        = d.filter (fun p => !(matchesConfig p.1)) ++ writeAll allOk es [] := by
  refine ⟨?_, writeConfigs_allOk_dir es d⟩
  intro n c hr hmem hm
  rw [writeConfigs_char]
  show FsEvent.remove n ∈ [FsEvent.mkdir, FsEvent.readDir] ++ _ ++ _
  apply List.mem_append.mpr
  left
  apply List.mem_append.mpr
  right
  rw [if_pos hr]
  exact List.mem_map.mpr ⟨n, List.mem_filter.mpr ⟨List.mem_map.mpr ⟨(n, c), hmem, rfl⟩, hm⟩, rfl⟩

theorem stale_matching_files_deleted_witness :
    (allOk.readDirOk = true ∧ (cfgNameOf "x", "c") ∈ ([(cfgNameOf "x", "c")] : Dir)
        ∧ matchesConfig (cfgNameOf "x") = true)
    ∧ FsEvent.remove (cfgNameOf "x") ∈ (writeConfigs allOk [] [(cfgNameOf "x", "c")]).events :=
  ⟨⟨rfl, by decide, by decide⟩,
    (stale_matching_files_deleted allOk [] [(cfgNameOf "x", "c")]).1 (cfgNameOf "x") "c" rfl
      (by decide) (by decide)⟩

/-! ## Directory lookup after the write loop (claim C10) -/

theorem find?_filter_of_imp {α : Type} (p q : α → Bool) (l : List α)
    (h : ∀ x, p x = true → q x = true) :
    List.find? p (l.filter q) = List.find? p l := by
  induction l with
  | nil => rfl
  | cons a l ih =>
    cases hq : q a with
    | true =>
      rw [List.filter_cons_of_pos hq]
      cases hp : p a with
      | true => rw [List.find?_cons_of_pos _ hp, List.find?_cons_of_pos _ hp]
      | false =>
        rw [List.find?_cons_of_neg _ (by simp [hp]), List.find?_cons_of_neg _ (by simp [hp])]
        exact ih
    | false =>
      have hp : p a = false := by
        cases hpa : p a with
        | false => rfl
        | true =>
          rw [h a hpa] at hq
          exact Bool.noConfusion hq
      rw [List.filter_cons_of_neg (by simp [hq])]
      rw [List.find?_cons_of_neg _ (by simp [hp])]
      exact ih

theorem dirGet_writeFileEntry_self (n c : String) (d : Dir) :
    dirGet n (writeFileEntry n c d) = some c := by
  unfold dirGet writeFileEntry
  rw [List.find?_append]
  have h1 : List.find? (fun p => p.1 == n) (removeName n d) = none := by
    rw [List.find?_eq_none]
    intro x hx
    have hxn := (List.mem_filter.mp hx).2
    rw [bne_iff_ne] at hxn
    simp [hxn]
  rw [h1]
  simp [List.find?]

theorem dirGet_writeFileEntry_ne (n m c : String) (d : Dir) (h : ¬ m = n) :
    dirGet n (writeFileEntry m c d) = dirGet n d := by
  unfold dirGet writeFileEntry
  rw [List.find?_append]
  have h2 : List.find? (fun p => p.1 == n) [(m, c)] = none := by
    have hb : (m == n) = false := by
      simpa using h
    simp [List.find?, hb]
  rw [h2]
  unfold removeName
  rw [find?_filter_of_imp (fun p => p.1 == n) (fun p => p.1 != m) d ?imp]
  · rw [Option.or_none]
  case imp =>
    intro x hx
    rw [beq_iff_eq] at hx
    rw [bne_iff_ne, hx]
    intro he
    exact h he.symm

theorem getLast?_cons_getD {α : Type} (a : α) (l : List α) :
    (a :: l).getLast? = some (l.getLast?.getD a) := by
  cases h : l.getLast? <;> simp [List.getLast?_cons, h]

theorem writeAll_allOk_dirGet (es : List NetworkConfigEntry) (d : Dir) (n : String) :
    dirGet (cfgNameOf n) (writeAll allOk es d) =
      match (physNamed n es).getLast? with
      | some e => some (renderEntry e)
      | none => dirGet (cfgNameOf n) d := by
  induction es generalizing d with
  | nil => simp [physNamed, writeAll]
  | cons e es ih =>
    rw [writeAll_cons]
    by_cases hp : isPhys e = true
    · rw [if_pos (by simp [hp, allOk])]
      rw [ih]
      by_cases hn : e.name = n
      · have hcons : physNamed n (e :: es) = e :: physNamed n es := by
          unfold physNamed
          rw [List.filter_cons_of_pos (by simp [hp, hn])]
        rw [hcons, getLast?_cons_getD]
        cases h5 : (physNamed n es).getLast? with
        | some e' => simp [h5]
        | none =>
          simp only [h5, Option.getD_none]
          rw [cfgName_eq, hn] at *
          exact (dirGet_writeFileEntry_self (cfgNameOf n) (renderEntry e) d).symm ▸ rfl
      · have hcons : physNamed n (e :: es) = physNamed n es := by
          unfold physNamed
          rw [List.filter_cons_of_neg (by simp [hn])]
        rw [hcons]
        cases h5 : (physNamed n es).getLast? with
        | some e' => simp [h5]
        | none =>
          simp only [h5]
          rw [cfgName_eq]
          exact dirGet_writeFileEntry_ne _ _ _ _ (fun he => hn (cfgNameOf_inj he))
    · rw [if_neg (by simp [hp])]
      rw [ih]
      have hcons : physNamed n (e :: es) = physNamed n es := by
        unfold physNamed
        rw [List.filter_cons_of_neg (by simp [hp])]
      rw [hcons]

theorem writeFileEntry_keys_nodup (n c : String) (d : Dir)
    (h : (d.map Prod.fst).Nodup) :
    ((writeFileEntry n c d).map Prod.fst).Nodup := by
  unfold writeFileEntry removeName
  rw [List.map_append, List.nodup_append]
  refine ⟨((List.filter_sublist d).map Prod.fst).nodup h, by simp, ?_⟩
  intro x hx hx2
  rcases List.mem_map.mp hx with ⟨p, hp, hpx⟩
  have hne := (List.mem_filter.mp hp).2
  rw [bne_iff_ne] at hne
  apply hne
  rw [hpx]
  simpa using hx2

theorem writeAll_keys_nodup (es : List NetworkConfigEntry) (d : Dir)
    (h : (d.map Prod.fst).Nodup) :
    ((writeAll allOk es d).map Prod.fst).Nodup := by
  induction es generalizing d with
  | nil => exact h
  | cons e es ih =>
    rw [writeAll_cons]
    by_cases hp : (isPhys e && allOk.writeOk (cfgName e)) = true
    · rw [if_pos hp]
      exact ih _ (writeFileEntry_keys_nodup _ _ _ h)
    · rw [if_neg hp]
      exact ih _ h

/-- Claim C10: the destination file name is a function of the entry's name
alone; for an all-success run starting from an empty directory, each
physical entry produces a write to its name-determined file in entry order,
the final content under a name is the rendering of the last physical entry
carrying that name (last write wins), and the directory holds one file per
distinct name (no duplicate keys). -/
theorem dest_path_by_name_last_write_wins (es : List NetworkConfigEntry) (n : String) :
    dirGet (cfgNameOf n) ((writeConfigs allOk es []).dir)
        = ((physNamed n es).getLast?).map renderEntry
    ∧ (((writeConfigs allOk es []).dir).map Prod.fst).Nodup
    ∧ (writeConfigs allOk es []).events
        = [FsEvent.mkdir, FsEvent.readDir]
          ++ (es.filter isPhys).map (fun e => FsEvent.write (cfgName e))
    ∧ (∀ e : NetworkConfigEntry, cfgName e = cfgNameOf e.name) := by
  have hdir : (writeConfigs allOk es []).dir = writeAll allOk es [] := by
    rw [writeConfigs_allOk_dir]
    rfl
  refine ⟨?_, ?_, ?_, fun e => rfl⟩
  · rw [hdir, writeAll_allOk_dirGet]
    cases h5 : (physNamed n es).getLast? <;> simp [h5, dirGet]
  · rw [hdir]
    exact writeAll_keys_nodup es [] (by simp)
  · rw [writeConfigs_char]
    show [FsEvent.mkdir, FsEvent.readDir]
        ++ (if allOk.readDirOk then
              ((([] : Dir).map Prod.fst).filter matchesConfig).map FsEvent.remove
            else [])
        ++ (es.filter isPhys).map (fun e => FsEvent.write (cfgName e)) = _
    simp

/-! ## Orchestrator lemmas -/

theorem fetchSync_fst (w : World) : (fetchSync w).1 = mainOk w.http w.fs w.dir := by
  unfold fetchSync mainOk fetchDecode
  cases w.http with
  | connErr => rfl
  | resp status r =>
    by_cases hs : (status != 200) = true
    · simp only [hs, if_true]
    · have hs' : (status != 200) = false := by simpa using hs
      simp only [hs', Bool.false_eq_true, if_false]
      cases r with
      | readErr => rfl
      | ok p =>
        cases p with
        | parseErr => rfl
        | ok m =>
          by_cases hv : (m.networkConfig.version != 1) = true
          · have hv' : (m.networkConfig.version == 1) = false := by
              simpa [bne] using hv
            simp [hv, hv']
          · have hv1 : (m.networkConfig.version != 1) = false := by simpa using hv
            have hv2 : (m.networkConfig.version == 1) = true := by
              simpa [bne] using hv
            simp only [hv1, Bool.false_eq_true, if_false, hv2, Bool.true_and]
            rw [writeConfigs_char]
            rfl

theorem run_exitCode (w : World) :
    (run w).exitCode = (if mainOk w.http w.fs w.dir = true then 0 else 1) := by
  show (if (fetchSync w).1 then 0 else 1) = _
  rw [fetchSync_fst]

/-- Claim C1: the process exits 0 exactly when the metadata fetch chain
succeeded (connection, status 200, body read, decode), the decoded
network-config version is 1, and every directory-sync step (mkdir,
enumeration, each matching deletion, each write) succeeded; in every other
case it exits 1. -/
theorem exit_zero_iff_fetch_and_sync (w : World) :
    ((run w).exitCode = 0 ↔
      ∃ m, fetchDecode w.http = some m ∧ m.networkConfig.version = 1
        ∧ syncStepsOk w.fs w.dir m.networkConfig.config = true)
    ∧ ((run w).exitCode = 0 ∨ (run w).exitCode = 1) := by
  rw [run_exitCode]
  constructor
  · unfold mainOk
    cases hf : fetchDecode w.http with
    | none => simp
    | some m =>
      by_cases hv : m.networkConfig.version = 1
      · by_cases hsy : syncStepsOk w.fs w.dir m.networkConfig.config = true
        · simp [hv, hsy]
        · have : syncStepsOk w.fs w.dir m.networkConfig.config = false := by simpa using hsy
          simp [hv, this]
      · have : (m.networkConfig.version == 1) = false := by simpa using hv
        simp [this, hv]
  · by_cases hb : mainOk w.http w.fs w.dir = true
    · left
      rw [if_pos hb]
    · right
      rw [if_neg hb]

/-- Claim C4: the netlink trace of a run is fully determined by the probe
outcome and the activation oracle: deactivation (address removal followed
by set-down) happens at end of run exactly when `haveLink` was false and
activation fully succeeded; a failed address-add has already brought the
interface down once (and a failed set-up never did), and no run issues more
than one set-down for an interface — a failed activation is never
deactivated a second time.  The trace does not depend on the fetch or sync
outcomes. -/
theorem deactivation_iff_successful_activation (w : World) :
    (run w).netEvents = netTrace w
    ∧ ((∃ n, NetEvent.addrDel n ∈ (run w).netEvents) ↔
        ((probe (w.links.getD [])).1 = false
          ∧ ∃ l, (probe (w.links.getD [])).2 = some l
              ∧ w.setUpOk = true ∧ w.addrAddOk = true))
    ∧ (∀ n, ((run w).netEvents.count (NetEvent.setDown n)) ≤ 1) := by
  have htr : (run w).netEvents = netTrace w := by
    show (if (probe (w.links.getD [])).1 then ((probe (w.links.getD [])).2, [], [])
          else
            match (probe (w.links.getD [])).2 with
            | none => (none, [], ["no ethernet interfaces"])
            | some l => activate w l).2.1
        ++ _ = netTrace w
    unfold netTrace
    rcases hpr : probe (w.links.getD []) with ⟨hl, fe⟩
    cases hl with
    | true => simp
    | false =>
      cases fe with
      | none => simp
      | some l =>
        unfold activate
        by_cases hu : w.setUpOk = true
        · by_cases ha : w.addrAddOk = true
          · simp [hu, ha]
          · have ha' : w.addrAddOk = false := by simpa using ha
            simp [hu, ha']
        · have hu' : w.setUpOk = false := by simpa using hu
          simp [hu']
  refine ⟨htr, ?_, ?_⟩
  · rw [htr]
    unfold netTrace
    rcases hpr : probe (w.links.getD []) with ⟨hl, fe⟩
    cases hl with
    | true => simp
    | false =>
      cases fe with
      | none => simp
      | some l =>
        by_cases hu : w.setUpOk = true
        · by_cases ha : w.addrAddOk = true
          · constructor
            · intro _
              exact ⟨rfl, l, rfl, hu, ha⟩
            · intro _
              refine ⟨l.name, ?_⟩
              simp [hu, ha]
          · have ha' : w.addrAddOk = false := by simpa using ha
            simp [hu, ha']
        · have hu' : w.setUpOk = false := by simpa using hu
          simp [hu']
  · intro n
    rw [htr]
    unfold netTrace
    rcases hpr : probe (w.links.getD []) with ⟨hl, fe⟩
    cases hl with
    | true => simp
    | false =>
      cases fe with
      | none => simp
      | some l =>
        by_cases hu : w.setUpOk = true
        · by_cases ha : w.addrAddOk = true
          · simp only [hu, ha, if_true]
            by_cases he : l.name = n
            · simp [List.count_cons, he]
            · have : (NetEvent.setDown l.name == NetEvent.setDown n) = false := by
                simp [he]
              simp [List.count_cons, this]
          · have ha' : w.addrAddOk = false := by simpa using ha
            simp only [hu, ha', Bool.false_eq_true, if_false, if_true]
            by_cases he : l.name = n
            · simp [List.count_cons, he]
            · have : (NetEvent.setDown l.name == NetEvent.setDown n) = false := by
                simp [he]
              simp [List.count_cons, this]
        · have hu' : w.setUpOk = false := by simpa using hu
          simp [hu', List.count_cons]

/-- Claim C5: if the decoded document's network-config version differs
from 1, no filesystem operation is even attempted, the directory is left
untouched, and the process exits 1. -/
theorem version_mismatch_no_fs_ops (w : World) (m : Metadata)
    (h1 : fetchDecode w.http = some m) (h2 : m.networkConfig.version ≠ 1) :
    (run w).fsEvents = [] ∧ (run w).dir = w.dir ∧ (run w).exitCode = 1 := by
  have hfs : fetchSync w = (false, w.dir, [],
      ["fetching metadata: unknown network-config version "
        ++ toString m.networkConfig.version]) := by
    rcases hw : w.http with _ | ⟨status, r⟩
    · rw [hw] at h1
      simp [fetchDecode] at h1
    · rcases r with _ | p
      · rw [hw] at h1
        by_cases hs : (status != 200) = true <;> simp [fetchDecode, hs] at h1
      · rcases p with _ | m'
        · rw [hw] at h1
          by_cases hs : (status != 200) = true <;> simp [fetchDecode, hs] at h1
        · rw [hw] at h1
          by_cases hs : (status != 200) = true
          · simp [fetchDecode, hs] at h1
          · have hm : m' = m := by simpa [fetchDecode, hs] using h1
            subst hm
            have hv : (m'.networkConfig.version != 1) = true := by
              rw [bne_iff_ne]
              exact h2
            simp [fetchSync, hw, hs, hv]
  refine ⟨?_, ?_, ?_⟩
  · show (fetchSync w).2.2.1 = []
    rw [hfs]
  · show (fetchSync w).2.1 = w.dir
    rw [hfs]
  · show (if (fetchSync w).1 then 0 else 1) = 1
    rw [hfs]
    rfl

theorem version_mismatch_no_fs_ops_witness :
    (fetchDecode worldV2.http = some metaV2 ∧ metaV2.networkConfig.version ≠ 1)
    ∧ ((run worldV2).fsEvents = [] ∧ (run worldV2).dir = worldV2.dir
        ∧ (run worldV2).exitCode = 1) :=
  ⟨⟨rfl, by decide⟩, version_mismatch_no_fs_ops worldV2 metaV2 rfl (by decide)⟩

/-- Counterexample to claim C9 as stated: the source discards the return
values of the deactivation calls (`netlink.AddrDel`, `netlink.LinkSetDown`,
lines 214-215) without logging them.  In a concrete run that performs
deactivation with both calls failing, the whole run result — including the
log — is identical to the run where both calls succeed, so the failure is
not logged. -/
theorem deactivation_failure_not_logged :
    worldDeactFail.addrDelOk = false ∧ worldDeactFail.setDownOk = false
    ∧ NetEvent.addrDel "eth0" ∈ (run worldDeactFail).netEvents
    ∧ run worldDeactFail = run worldDeactOk
    ∧ (run worldDeactFail).log = (run worldDeactOk).log :=
  ⟨rfl, rfl, by decide, rfl, rfl⟩

/-- Claim C9 amended: when deactivation is performed, a failure of the
address removal or of bringing the interface back down is silently ignored
(neither logged nor otherwise observable) and never affects the process
exit status, which is determined only by the fetch and sync outcomes. -/
theorem deactivation_failures_ignored (w : World) (a b : Bool) :
    run { w with addrDelOk := a, setDownOk := b }
        = run { w with addrDelOk := true, setDownOk := true }
    ∧ (run w).exitCode = (if mainOk w.http w.fs w.dir = true then 0 else 1) :=
  ⟨rfl, run_exitCode w⟩

end HCloud
